import Mathlib

/-!
Shallow embedding of the data pipeline of `src/casos.py` (leishmaniasis
dashboard).  Tables are lists of rows; pandas semantics are made explicit:

* `pd.to_datetime(..., errors="coerce")` is modelled by a parse function
  `String → Option Datetime` supplied as a parameter (the date grammar lives
  in pandas, outside the repository); an unparseable value becomes `none`.
* Nullable columns (`uf`, `nome_municipio`, `lat_locali`, `long_local`,
  parsed dates and the derived `ano`) are `Option`-valued.  `id_municip` is
  modelled as always present: the script never null-handles it.
* `df[col] == v` and `isin` are false on null values.
* `groupby` uses the pandas defaults: null group keys are dropped
  (`dropna=True`) and the groups are emitted in ascending key order
  (`sort=True`).
* `drop_duplicates(subset=k)` keeps the first row for each key.
* `merge(..., how="left")` emits, for each left row, one output row per
  matching right row, or a single row with null right-hand columns when
  there is no match.
* `sort_values` (default `kind='quicksort'`, unstable) is modelled by an
  insertion sort; the two agree up to the order of ties, which the program
  does not specify, so the general theorems below state only facts that
  hold for every correct sort (permutation, descending order).  The tie
  order of the model is relied on only for the two-element counterexample
  table, where numpy's sort degenerates to an insertion sort as well.
* Coordinates and socio-environmental values are only ever tested for
  nullness by the claims, so their numeric payload is modelled as `Int`.
-/

/-- A parsed notification date (result of `pd.to_datetime`). -/
structure Datetime where
  year : Int
  month : Nat
  day : Nat
deriving DecidableEq, Repr

/-- A raw row of `leishmaniose_mega_tratada.parquet`, before the transform
steps of `carregar_dados`.  Only the columns the claims touch are kept. -/
structure RawRow where
  id_municip : Nat
  uf : Option String
  dt_notific : String
  nome_municipio : Option String
  lat_locali : Option Int
  long_local : Option Int
deriving DecidableEq, Repr

/-- A row of the loaded table `df`: parsed date, derived `ano`, `casos = 1`. -/
structure Row where
  id_municip : Nat
  uf : Option String
  dt_notific : Option Datetime
  ano : Option Int
  casos : Nat
  nome_municipio : Option String
  lat_locali : Option Int
  long_local : Option Int
deriving DecidableEq, Repr

/-- Worker for `dedupBy`: `seen` is the list of key values already kept. -/
def dedupByAux {α : Type} {κ : Type} [DecidableEq κ] (key : α → κ)
    (seen : List κ) : List α → List α
  | [] => []
  | x :: xs =>
    if seen.contains (key x) then dedupByAux key seen xs
    else x :: dedupByAux key (key x :: seen) xs

/-- Pandas `drop_duplicates(subset=[key])`: keep the first row for each key value. -/
def dedupBy {α : Type} {κ : Type} [DecidableEq κ] (key : α → κ) (l : List α) : List α :=
  dedupByAux key [] l

/-- Stable insertion into a sorted list: an element is placed before the
first element it compares `le` to, hence before equal elements that were
already present (they came later in the original list). -/
def insertSorted {α : Type} (le : α → α → Bool) (x : α) : List α → List α
  | [] => [x]
  | y :: ys => if le x y then x :: y :: ys else y :: insertSorted le x ys

/-- Stable insertion sort, modelling `sort_values` / the ordering of pandas
group keys. -/
def sortBy {α : Type} (le : α → α → Bool) : List α → List α
  | [] => []
  | x :: xs => insertSorted le x (sortBy le xs)

/-- Pandas `merge(..., how="left")` on an integer key: each left row produces one
output row per matching right row, or a single `miss` row when no right row
matches. -/
def mergeLeft {α β γ : Type} (key : α → Nat) (rkey : β → Nat)
    (comb : α → β → γ) (miss : α → γ) (left : List α) (right : List β) : List γ :=
  (left.map (fun a =>
    let ms := right.filter (fun b => rkey b == key a)
    if ms.isEmpty then [miss a] else ms.map (comb a))).flatten

/-- Sum of the `casos` column (each row carries `casos = 1`, but the
aggregates only rely on summability). -/
def sumCasos (l : List Row) : Nat := (l.map (fun r => r.casos)).sum

/-- Pandas `groupby(key)["casos"].sum()` with its defaults: rows whose key is
null are dropped, distinct keys are listed in ascending (`le`) order, and
each key is paired with the sum of `casos` over its rows. -/
def groupbySumCasos {κ : Type} [DecidableEq κ] (key : Row → Option κ)
    (le : κ → κ → Bool) (l : List Row) : List (κ × Nat) :=
  (sortBy le (l.filterMap key).dedup).map
    (fun k => (k, sumCasos (l.filter (fun r => decide (key r = some k)))))

/-- Strict order on characters, by code point. -/
def charLt (a b : Char) : Bool := decide (a.toNat < b.toNat)

/-- Lexicographic order on character lists. -/
def charListLe : List Char → List Char → Bool
  | [], _ => true
  | _ :: _, [] => false
  | a :: as, b :: bs =>
    if charLt a b then true
    else if charLt b a then false
    else charListLe as bs

/-- Boolean order on strings (pandas sorts state codes and names
lexicographically). -/
def strLe (a b : String) : Bool := charListLe a.data b.data

/-- Boolean order on `Nat` keys (municipality ids). -/
def natLe (a b : Nat) : Bool := Nat.ble a b

/-- Lexicographic order on `(nome_municipio, uf)` group keys. -/
def chaveLe (a b : String × String) : Bool :=
  if a.1 == b.1 then strLe a.2 b.2 else strLe a.1 b.1

/-- Descending order on the summed `casos` of a group
(`sort_values("casos", ascending=False)`). -/
def porCasosDesc {κ : Type} (a b : κ × Nat) : Bool := Nat.ble b.2 a.2

/-- Pandas `df["uf"].isin(estado)`: null is never a member. -/
def isin (o : Option String) (s : List String) : Bool :=
  match o with
  | none => false
  | some x => s.contains x

/-- Steps 1–3 of `carregar_dados`: parse `dt_notific` with errors coerced to
null, derive `ano = dt_notific.dt.year`, set `casos = 1`. -/
def parse_linhas (parse : String → Option Datetime) (raw : List RawRow) : List Row :=
  raw.map (fun r =>
    let dt := parse r.dt_notific
    { id_municip := r.id_municip
      uf := r.uf
      dt_notific := dt
      ano := dt.map (fun d => d.year)
      casos := 1
      nome_municipio := r.nome_municipio
      lat_locali := r.lat_locali
      long_local := r.long_local })

/-- The Municipality Reference:
`df.dropna(subset=["nome_municipio"]).drop_duplicates(subset=["id_municip"])[["id_municip","nome_municipio"]]`. -/
def referencia_municipios (df : List Row) : List (Nat × Option String) :=
  (dedupBy (fun r => r.id_municip) (df.filter (fun r => r.nome_municipio.isSome))).map
    (fun r => (r.id_municip, r.nome_municipio))

/-- The loader `carregar_dados`: parse/derive per row, build the Municipality Reference,
then drop the `nome_municipio` column and left-merge the reference back on
`id_municip` (a row whose id has no reference entry gets a null name). -/
def carregar_dados (parse : String → Option Datetime) (raw : List RawRow) : List Row :=
  let df := parse_linhas parse raw
  let ref := referencia_municipios df
  mergeLeft (fun r => r.id_municip) (fun e => e.1)
    (fun r e => { r with nome_municipio := e.2 })
    (fun r => { r with nome_municipio := none })
    df ref

/-- The value `carregar_dados` produces for one raw row (the left merge hits
at most one reference entry, so the loader is row-wise; proved below in
`carregar_dados_eq_map`). -/
def carregar_linha (parse : String → Option Datetime) (raw : List RawRow) (r : RawRow) : Row :=
  let dt := parse r.dt_notific
  let ref := referencia_municipios (parse_linhas parse raw)
  { id_municip := r.id_municip
    uf := r.uf
    dt_notific := dt
    ano := dt.map (fun d => d.year)
    casos := 1
    nome_municipio :=
      (ref.find? (fun e => e.1 == r.id_municip)).elim none (fun e => e.2)
    lat_locali := r.lat_locali
    long_local := r.long_local }

/-- Looking a municipality id up in the Municipality Reference; `none` when
the id has no reference entry. -/
def lookupNome (ref : List (Nat × Option String)) (i : Nat) : Option String :=
  (ref.find? (fun e => e.1 == i)).elim none (fun e => e.2)

/-- The Filter Engine:
`df_filtro = df[df["ano"] == ano]` then, only when the state selection is
non-empty, `df_filtro = df_filtro[df_filtro["uf"].isin(estado)]`. -/
def df_filtro (df : List Row) (ano : Int) (estado : List String) : List Row :=
  let d := df.filter (fun r => decide (r.ano = some ano))
  if estado.isEmpty then d else d.filter (fun r => isin r.uf estado)

/-- State totals: `df_filtro.groupby("uf")["casos"].sum()` sorted descending
by `casos`. -/
def casos_estado (dfF : List Row) : List (String × Nat) :=
  sortBy porCasosDesc (groupbySumCasos (fun r => r.uf) strLe dfF)

/-- The `(nome_municipio, uf)` group key; null (dropped by `groupby`) when
either component is null. -/
def chave_municipio (r : Row) : Option (String × String) :=
  match r.nome_municipio, r.uf with
  | some n, some u => some (n, u)
  | _, _ => none

/-- Top-20 municipalities: drop rows with a null `nome_municipio`, group by
`(nome_municipio, uf)`, sum `casos`, sort descending by `casos`, keep 20. -/
def casos_municipio (dfF : List Row) : List ((String × String) × Nat) :=
  (sortBy porCasosDesc
    (groupbySumCasos chave_municipio chaveLe
      (dfF.filter (fun r => r.nome_municipio.isSome)))).take 20

/-- A row of the geo reference
`df[["id_municip","nome_municipio","uf","lat_locali","long_local"]]`. -/
structure GeoRow where
  id_municip : Nat
  nome_municipio : Option String
  uf : Option String
  lat_locali : Option Int
  long_local : Option Int
deriving DecidableEq, Repr

/-- Projection of a loaded row onto the geo reference columns. -/
def linha_geo (r : Row) : GeoRow :=
  { id_municip := r.id_municip
    nome_municipio := r.nome_municipio
    uf := r.uf
    lat_locali := r.lat_locali
    long_local := r.long_local }

/-- The geo reference `geo_base`: the geo columns of the FULL loaded table, deduplicated by
`id_municip` (first row per id wins; null coordinates are not filtered out
beforehand). -/
def geo_base (df : List Row) : List GeoRow :=
  dedupBy (fun g => g.id_municip) (df.map linha_geo)

/-- A row of the map aggregate after the left merge with `geo_base`. -/
structure MapRow where
  id_municip : Nat
  casos : Nat
  nome_municipio : Option String
  uf : Option String
  lat_locali : Option Int
  long_local : Option Int
deriving DecidableEq, Repr

/-- The map aggregate `casos_mapa`: per-id case totals of the filtered table, left-merged with
`geo_base`, then `dropna(subset=["lat_locali","long_local"])` (a row is
dropped when either coordinate is null). -/
def casos_mapa (df dfF : List Row) : List MapRow :=
  let totais := groupbySumCasos (fun r => some r.id_municip) natLe dfF
  let com_geo := mergeLeft (fun t => t.1) (fun g => g.id_municip)
    (fun t g =>
      { id_municip := t.1, casos := t.2, nome_municipio := g.nome_municipio
        uf := g.uf, lat_locali := g.lat_locali, long_local := g.long_local })
    (fun t =>
      { id_municip := t.1, casos := t.2, nome_municipio := none
        uf := none, lat_locali := none, long_local := none })
    totais (geo_base df)
  com_geo.filter (fun m => m.lat_locali.isSome && m.long_local.isSome)

/-- The chart payloads computed after the empty-filter guard. -/
structure Paineis where
  estado : List (String × Nat)
  municipio : List ((String × String) × Nat)
  mapa : List MapRow
deriving DecidableEq, Repr

/-- Outcome of one run of the script after the filter step: either the
"no data" warning followed by `st.stop()` (no aggregate is computed), or the
aggregate payloads. -/
inductive Resultado where
  | semDados : Resultado
  | paineis : Paineis → Resultado
deriving DecidableEq, Repr

/-- The script's control flow from the filter step on:
`if df_filtro.empty: st.warning(...); st.stop()` — otherwise every
aggregator runs on the filtered table. -/
def executar (df : List Row) (ano : Int) (estado : List String) : Resultado :=
  let dfF := df_filtro df ano estado
  if dfF.isEmpty then Resultado.semDados
  else Resultado.paineis
    { estado := casos_estado dfF
      municipio := casos_municipio dfF
      mapa := casos_mapa df dfF }

/-- A date parser for the concrete examples: exactly one string parses. -/
def exParse : String → Option Datetime := fun s =>
  if s = "2020-05-01" then some ⟨2020, 5, 1⟩ else none

/-- A date parser that parses nothing (every date unparseable). -/
def parseNone : String → Option Datetime := fun _ => none

/-- Helper to build a raw row. -/
def mkRaw (i : Nat) (u : Option String) (d : String) (n : Option String)
    (la lo : Option Int) : RawRow :=
  { id_municip := i, uf := u, dt_notific := d, nome_municipio := n
    lat_locali := la, long_local := lo }

/-- One raw record whose state code is null. -/
def exRawC2 : List RawRow := [mkRaw 1 none "2020-05-01" (some "X") (some 1) (some 2)]

/-- The loaded table for `exRawC2`. -/
def exDfC2 : List Row := carregar_dados exParse exRawC2

/-- A filtered table with two municipalities, "B" appearing before "A",
each contributing one case in the same state and year. -/
def exMun : List Row :=
  df_filtro (carregar_dados exParse
    [mkRaw 1 (some "SP") "2020-05-01" (some "B") none none,
     mkRaw 2 (some "SP") "2020-05-01" (some "A") none none]) 2020 []

/-- One raw record whose latitude and longitude are both null. -/
def exRawC4 : List RawRow := [mkRaw 1 (some "SP") "2020-05-01" (some "A") none none]

/-- The loaded table for `exRawC4`. -/
def exDfC4 : List Row := carregar_dados exParse exRawC4

/-- One raw record whose notification date is unparseable. -/
def exRawC7 : List RawRow := [mkRaw 3 (some "MG") "data-invalida" (some "C") none none]

/-- The first raw row of `exRawC7`. -/
def exRawC7row : RawRow := mkRaw 3 (some "MG") "data-invalida" (some "C") none none

/-- Two raw records with the same municipality id: the first lacks a
latitude, the second carries full coordinates. -/
def exRawC10 : List RawRow :=
  [mkRaw 1 (some "SP") "2020-05-01" (some "A") none (some 2),
   mkRaw 1 (some "SP") "2020-05-01" (some "A") (some 1) (some 2)]

/-- The loaded table for `exRawC10`. -/
def exDfC10 : List Row := carregar_dados exParse exRawC10

/-- Inserting into a list is a permutation of consing. -/
theorem insertSorted_perm {α : Type} (le : α → α → Bool) (x : α) :
    ∀ l : List α, (insertSorted le x l).Perm (x :: l)
  | [] => List.Perm.refl _
  | y :: ys => by
    simp only [insertSorted]
    split
    · exact List.Perm.refl _
    · exact ((insertSorted_perm le x ys).cons y).trans (List.Perm.swap x y ys)

/-- Insertion sort permutes its input. -/
theorem sortBy_perm {α : Type} (le : α → α → Bool) :
    ∀ l : List α, (sortBy le l).Perm l
  | [] => List.Perm.refl _
  | x :: xs => (insertSorted_perm le x (sortBy le xs)).trans ((sortBy_perm le xs).cons x)

/-- Every list is pairwise related by the trivial relation. -/
theorem pairwise_trivial {α : Type} : ∀ l : List α, l.Pairwise (fun _ _ => True)
  | [] => List.Pairwise.nil
  | _ :: xs => List.Pairwise.cons (fun _ _ => trivial) (pairwise_trivial xs)

/-- Inserting into a sorted list preserves sortedness together with the
stability invariant: `Q` records the original relative order of elements,
and is guaranteed for pairs the order `le` cannot distinguish. -/
theorem insertSorted_pairwise {α : Type} {le : α → α → Bool} {Q : α → α → Prop}
    (htot : ∀ a b, le a b = true ∨ le b a = true)
    (htrans : ∀ a b c, le a b = true → le b c = true → le a c = true)
    (x : α) :
    ∀ ys : List α,
      ys.Pairwise (fun a b => le a b = true ∧ (le b a = true → Q a b)) →
      (∀ y ∈ ys, Q x y) →
      (insertSorted le x ys).Pairwise
        (fun a b => le a b = true ∧ (le b a = true → Q a b))
  | [], _, _ => List.pairwise_singleton _ x
  | y :: ys, hys, hx => by
    rw [List.pairwise_cons] at hys
    obtain ⟨hy, hys2⟩ := hys
    simp only [insertSorted]
    by_cases hxy : le x y = true
    · rw [if_pos hxy]
      refine List.Pairwise.cons ?_ (List.Pairwise.cons hy hys2)
      intro z hz
      rcases List.mem_cons.mp hz with rfl | hz
      · exact ⟨hxy, fun _ => hx z (List.mem_cons_self _ _)⟩
      · exact ⟨htrans x y z hxy (hy z hz).1,
          fun _ => hx z (List.mem_cons_of_mem _ hz)⟩
    · rw [if_neg hxy]
      have hyx : le y x = true := (htot x y).resolve_left hxy
      refine List.Pairwise.cons ?_
        (insertSorted_pairwise htot htrans x ys hys2
          (fun z hz => hx z (List.mem_cons_of_mem _ hz)))
      intro z hz
      have hz2 : z = x ∨ z ∈ ys :=
        List.mem_cons.mp ((insertSorted_perm le x ys).mem_iff.mp hz)
      rcases hz2 with rfl | hz2
      · exact ⟨hyx, fun hxy2 => absurd hxy2 hxy⟩
      · exact hy z hz2

/-- Stable sort: the output is sorted by `le`, and pairs `le` cannot
distinguish keep the order they had in the input (recorded by `Q`). -/
theorem sortBy_pairwise {α : Type} {le : α → α → Bool} {Q : α → α → Prop}
    (htot : ∀ a b, le a b = true ∨ le b a = true)
    (htrans : ∀ a b c, le a b = true → le b c = true → le a c = true) :
    ∀ l : List α, l.Pairwise Q →
      (sortBy le l).Pairwise (fun a b => le a b = true ∧ (le b a = true → Q a b))
  | [], _ => List.Pairwise.nil
  | x :: xs, hl => by
    rw [List.pairwise_cons] at hl
    simp only [sortBy]
    refine insertSorted_pairwise htot htrans x _
      (sortBy_pairwise htot htrans xs hl.2) ?_
    intro y hy
    exact hl.1 y ((sortBy_perm le xs).subset hy)

/-- Elements of the dedup worker come from its input. -/
theorem mem_dedupByAux {α κ : Type} [DecidableEq κ] (key : α → κ) :
    ∀ (seen : List κ) (l : List α) (x : α), x ∈ dedupByAux key seen l → x ∈ l
  | _, [], x, h => by simp [dedupByAux] at h
  | seen, y :: ys, x, h => by
    simp only [dedupByAux] at h
    split at h
    · exact List.mem_cons_of_mem _ (mem_dedupByAux key seen ys x h)
    · rcases List.mem_cons.mp h with rfl | h
      · exact List.mem_cons_self _ _
      · exact List.mem_cons_of_mem _ (mem_dedupByAux key _ ys x h)

/-- The dedup worker emits pairwise-distinct keys, none of them in `seen`. -/
theorem dedupByAux_keys_nodup {α κ : Type} [DecidableEq κ] (key : α → κ) :
    ∀ (seen : List κ) (l : List α),
      ((dedupByAux key seen l).map key).Nodup ∧
      ∀ x ∈ dedupByAux key seen l, key x ∉ seen
  | seen, [] => by simp [dedupByAux]
  | seen, y :: ys => by
    simp only [dedupByAux]
    split
    · exact dedupByAux_keys_nodup key seen ys
    · next hc =>
      have hnotin : key y ∉ seen := fun hmem => hc (List.elem_iff.mpr hmem)
      obtain ⟨hnd, hni⟩ := dedupByAux_keys_nodup key (key y :: seen) ys
      refine ⟨?_, ?_⟩
      · rw [List.map_cons, List.nodup_cons]
        refine ⟨?_, hnd⟩
        intro hmem
        obtain ⟨z, hz, hkz⟩ := List.mem_map.mp hmem
        exact hni z hz (List.mem_cons.mpr (Or.inl hkz))
      · intro x hx
        rcases List.mem_cons.mp hx with rfl | hx
        · exact hnotin
        · intro hmem
          exact hni x hx (List.mem_cons_of_mem _ hmem)

/-- Looking a fresh key up in the dedup worker's output is the same as
looking it up in the input: the first row with that key is kept. -/
theorem dedupByAux_find {α κ : Type} [DecidableEq κ] (key : α → κ) (k : κ) :
    ∀ (seen : List κ) (l : List α), k ∉ seen →
      (dedupByAux key seen l).find? (fun x => key x == k)
        = l.find? (fun x => key x == k)
  | _, [], _ => by simp [dedupByAux]
  | seen, y :: ys, h => by
    simp only [dedupByAux]
    split
    · next hc =>
      have hky : (key y == k) = false := by
        apply beq_false_of_ne
        intro e
        exact h (e ▸ List.elem_iff.mp hc)
      rw [List.find?_cons, hky]
      exact dedupByAux_find key k seen ys h
    · next hc =>
      by_cases hpy : key y = k
      · simp [List.find?_cons, hpy]
      · have h2 : k ∉ key y :: seen := by
          intro hm
          rcases List.mem_cons.mp hm with rfl | hm
          · exact hpy rfl
          · exact h hm
        have hky : (key y == k) = false := beq_false_of_ne hpy
        rw [List.find?_cons, List.find?_cons, hky]
        exact dedupByAux_find key k (key y :: seen) ys h2

/-- Pandas `drop_duplicates(subset=[key])` keeps, for each key, the first input row
with that key. -/
theorem dedupBy_find {α κ : Type} [DecidableEq κ] (key : α → κ) (k : κ)
    (l : List α) :
    (dedupBy key l).find? (fun x => key x == k) = l.find? (fun x => key x == k) :=
  dedupByAux_find key k [] l (List.not_mem_nil k)

/-- Searching a filtered list is searching for the conjunction. -/
theorem find_on_filter {α : Type} (p q : α → Bool) :
    ∀ l : List α, (l.filter q).find? p = l.find? (fun x => q x && p x)
  | [] => rfl
  | x :: xs => by
    simp only [List.filter_cons]
    by_cases hq : q x = true
    · rw [if_pos hq, List.find?_cons, List.find?_cons, hq, Bool.true_and]
      cases hp : p x
      · exact find_on_filter p q xs
      · rfl
    · rw [if_neg hq, List.find?_cons]
      have hq2 : q x = false := Bool.not_eq_true _ ▸ eq_false_of_ne_true hq
      rw [hq2, Bool.false_and]
      exact find_on_filter p q xs

/-- When the right table's keys are pairwise distinct, each left row's merge
bucket is the single row given by `find?` (or the `miss` row). -/
theorem mergeLeft_bucket {β γ : Type} (rkey : β → Nat) (k : Nat) (comb : β → γ)
    (missv : γ) :
    ∀ right : List β, ((right.map rkey).Nodup) →
      (if (right.filter (fun b => rkey b == k)).isEmpty then [missv]
       else (right.filter (fun b => rkey b == k)).map comb)
        = [(right.find? (fun b => rkey b == k)).elim missv comb]
  | [], _ => rfl
  | b :: bs, hnd => by
    rw [List.map_cons, List.nodup_cons] at hnd
    by_cases hk : rkey b = k
    · have hbs : bs.filter (fun x => rkey x == k) = [] := by
        rw [List.filter_eq_nil_iff]
        intro c hc hck
        exact hnd.1 (List.mem_map.mpr ⟨c, hc, by
          rw [eq_of_beq hck, hk]⟩)
      have hbk : (rkey b == k) = true := beq_iff_eq.mpr hk
      rw [List.filter_cons, if_pos hbk, hbs,
        List.find?_cons_of_pos (p := fun x => rkey x == k) bs hbk]
      simp
    · have hbk : (rkey b == k) = false := beq_false_of_ne hk
      have hc : ¬((rkey b == k) = true) := by simp [hbk]
      rw [List.filter_cons, if_neg hc,
        List.find?_cons_of_neg (p := fun x => rkey x == k) bs hc]
      exact mergeLeft_bucket rkey k comb missv bs hnd.2

/-- With pairwise-distinct right keys, the left merge is row-wise on the
left table: each left row is combined with the unique match, if any. -/
theorem mergeLeft_eq_map {α β γ : Type} (key : α → Nat) (rkey : β → Nat)
    (comb : α → β → γ) (miss : α → γ) (right : List β)
    (hnd : (right.map rkey).Nodup) :
    ∀ left : List α,
      mergeLeft key rkey comb miss left right
        = left.map (fun a =>
            (right.find? (fun b => rkey b == key a)).elim (miss a) (comb a))
  | [] => rfl
  | a :: as => by
    have ih := mergeLeft_eq_map key rkey comb miss right hnd as
    simp only [mergeLeft, List.map_cons, List.flatten_cons] at ih ⊢
    rw [mergeLeft_bucket rkey (key a) (comb a) (miss a) right hnd, ih]
    rfl

/-- A left merge with pairwise-distinct right keys preserves the number of
rows of the left table. -/
theorem mergeLeft_length {α β γ : Type} (key : α → Nat) (rkey : β → Nat)
    (comb : α → β → γ) (miss : α → γ) (left : List α) (right : List β)
    (hnd : (right.map rkey).Nodup) :
    (mergeLeft key rkey comb miss left right).length = left.length := by
  rw [mergeLeft_eq_map key rkey comb miss right hnd left, List.length_map]

/-- Membership in a left merge: an output row is either a `miss` row for a
matchless left row, or the combination of a left row with a matching right
row. -/
theorem mem_mergeLeft {α β γ : Type} {key : α → Nat} {rkey : β → Nat}
    {comb : α → β → γ} {miss : α → γ} {left : List α} {right : List β}
    {m : γ} (h : m ∈ mergeLeft key rkey comb miss left right) :
    (∃ a ∈ left, m = miss a) ∨
    (∃ a ∈ left, ∃ b ∈ right, rkey b = key a ∧ m = comb a b) := by
  unfold mergeLeft at h
  rw [List.mem_flatten] at h
  obtain ⟨bucket, hb, hm⟩ := h
  rw [List.mem_map] at hb
  obtain ⟨a, ha, rfl⟩ := hb
  by_cases he : (right.filter (fun b => rkey b == key a)).isEmpty = true
  · rw [if_pos he] at hm
    rcases List.mem_singleton.mp hm with rfl
    exact Or.inl ⟨a, ha, rfl⟩
  · rw [if_neg he] at hm
    rw [List.mem_map] at hm
    obtain ⟨b, hbf, rfl⟩ := hm
    rw [List.mem_filter] at hbf
    exact Or.inr ⟨a, ha, b, hbf.1, eq_of_beq hbf.2, rfl⟩

/-- Summing an indicator over a duplicate-free list that contains the hit. -/
theorem sum_map_single {κ : Type} [DecidableEq κ] (c : Nat) :
    ∀ ks : List κ, ks.Nodup → ∀ k0 ∈ ks,
      (ks.map (fun k => if k0 = k then c else 0)).sum = c
  | [], _, k0, h => absurd h (List.not_mem_nil k0)
  | k :: ks, hnd, k0, h => by
    rw [List.nodup_cons] at hnd
    by_cases heq : k0 = k
    · subst heq
      rw [List.map_cons, if_pos rfl, List.sum_cons]
      have hz : (ks.map (fun x => if k0 = x then c else 0)).sum = 0 := by
        apply List.sum_eq_zero
        intro n hn
        rw [List.mem_map] at hn
        obtain ⟨x, hx, hxe⟩ := hn
        rw [← hxe, if_neg]
        intro e
        exact hnd.1 (by rw [e]; exact hx)
      rw [hz]
      exact Nat.add_zero c
    · have h2 : k0 ∈ ks := by
        rcases List.mem_cons.mp h with e | h2
        · exact absurd e heq
        · exact h2
      rw [List.map_cons, if_neg heq, List.sum_cons, Nat.zero_add]
      exact sum_map_single c ks hnd.2 k0 h2

/-- Splitting the sum of `casos` of a filtered cons. -/
theorem sumCasos_filter_cons (p : Row → Bool) (r : Row) (l : List Row) :
    sumCasos ((r :: l).filter p)
      = (if p r = true then r.casos else 0) + sumCasos (l.filter p) := by
  by_cases hp : p r = true
  · rw [List.filter_cons, if_pos hp, if_pos hp]
    simp [sumCasos]
  · rw [List.filter_cons, if_neg hp, if_neg hp, Nat.zero_add]

/-- Partitioning the non-null-key rows by their key: the per-key sums add up
to the total over rows with a non-null key, for any duplicate-free key list
covering the keys that occur. -/
theorem sum_groupby_parts {κ : Type} [DecidableEq κ] (key : Row → Option κ) :
    ∀ (l : List Row) (ks : List κ), ks.Nodup →
      (∀ r ∈ l, ∀ k, key r = some k → k ∈ ks) →
      (ks.map (fun k => sumCasos (l.filter (fun r => decide (key r = some k))))).sum
        = sumCasos (l.filter (fun r => (key r).isSome))
  | [], ks, _, _ => by simp [sumCasos]
  | r :: l, ks, hnd, hcov => by
    have ih := sum_groupby_parts key l ks hnd
      (fun x hx => hcov x (List.mem_cons_of_mem _ hx))
    have hmap : ks.map (fun k => sumCasos ((r :: l).filter (fun x => decide (key x = some k))))
        = ks.map (fun k =>
            (if decide (key r = some k) = true then r.casos else 0)
              + sumCasos (l.filter (fun x => decide (key x = some k)))) := by
      apply List.map_congr_left
      intro k _
      exact sumCasos_filter_cons _ r l
    rw [hmap, List.sum_map_add, ih, sumCasos_filter_cons]
    congr 1
    cases hkey : key r with
    | none => simp
    | some k0 =>
      have hk0 : k0 ∈ ks := hcov r (List.mem_cons_self _ _) k0 hkey
      have he : ks.map (fun k => if decide (some k0 = some k) = true then r.casos else 0)
          = ks.map (fun k => if k0 = k then r.casos else 0) := by
        apply List.map_congr_left
        intro k _
        by_cases hk : k0 = k
        · rw [if_pos (by simp [hk]), if_pos hk]
        · rw [if_neg (by simp [hk]), if_neg hk]
      rw [he, sum_map_single r.casos ks hnd k0 hk0]
      simp

/-- The group sums of `groupbySumCasos` add up to the total `casos` over the
rows whose group key is non-null. -/
theorem groupbySumCasos_sum {κ : Type} [DecidableEq κ] (key : Row → Option κ)
    (le : κ → κ → Bool) (l : List Row) :
    ((groupbySumCasos key le l).map (fun g => g.2)).sum
      = sumCasos (l.filter (fun r => (key r).isSome)) := by
  unfold groupbySumCasos
  rw [List.map_map]
  have hperm : ((sortBy le (l.filterMap key).dedup).map
      (fun k => sumCasos (l.filter (fun r => decide (key r = some k))))).Perm
      (((l.filterMap key).dedup).map
      (fun k => sumCasos (l.filter (fun r => decide (key r = some k))))) :=
    (sortBy_perm le (l.filterMap key).dedup).map _
  rw [show ((fun g : κ × Nat => g.2) ∘ fun k =>
      (k, sumCasos (l.filter (fun r => decide (key r = some k)))))
      = fun k => sumCasos (l.filter (fun r => decide (key r = some k))) from rfl]
  rw [hperm.sum_eq]
  exact sum_groupby_parts key l (l.filterMap key).dedup (List.nodup_dedup _)
    (fun r hr k hk => List.mem_dedup.mpr (List.mem_filterMap.mpr ⟨r, hr, hk⟩))

/-- The Municipality Reference holds pairwise-distinct municipality ids
(exactly one entry per id). -/
theorem referencia_keys_nodup (df : List Row) :
    ((referencia_municipios df).map (fun e => e.1)).Nodup := by
  unfold referencia_municipios
  rw [List.map_map]
  exact (dedupByAux_keys_nodup (fun r => r.id_municip) []
    (df.filter (fun r => r.nome_municipio.isSome))).1

/-- Commuting an option eliminator with the construction of a row: the
eliminator may be confined to the name column. -/
theorem elim_option_nome (i : Nat) (u : Option String) (d : Option Datetime)
    (a : Option Int) (c : Nat) (la lo : Option Int)
    (o : Option (Nat × Option String)) :
    (o.elim
      ({ id_municip := i, uf := u, dt_notific := d, ano := a, casos := c
         nome_municipio := none, lat_locali := la, long_local := lo } : Row)
      (fun e =>
       { id_municip := i, uf := u, dt_notific := d, ano := a, casos := c
         nome_municipio := e.2, lat_locali := la, long_local := lo }))
    = ({ id_municip := i, uf := u, dt_notific := d, ano := a, casos := c
         nome_municipio := o.elim none (fun e => e.2)
         lat_locali := la, long_local := lo } : Row) := by
  cases o <;> rfl

/-- The loader is row-wise: since the Municipality Reference has one entry
per id, the left merge sends the i-th raw row to the i-th loaded row. -/
theorem carregar_dados_eq_map (parse : String → Option Datetime) (raw : List RawRow) :
    carregar_dados parse raw = raw.map (carregar_linha parse raw) := by
  have h := mergeLeft_eq_map (fun r : Row => r.id_municip)
    (fun e : Nat × Option String => e.1)
    (fun r e => { r with nome_municipio := e.2 })
    (fun r => { r with nome_municipio := none })
    (referencia_municipios (parse_linhas parse raw))
    (referencia_keys_nodup (parse_linhas parse raw))
    (parse_linhas parse raw)
  simp only [carregar_dados]
  rw [h]
  unfold parse_linhas
  rw [List.map_map]
  apply List.map_congr_left
  intro r0 _
  simp only [Function.comp_apply, carregar_linha]
  exact elim_option_nome _ _ _ _ _ _ _ _

/-- The loader preserves the number of rows. -/
theorem carregar_dados_length (parse : String → Option Datetime) (raw : List RawRow) :
    (carregar_dados parse raw).length = raw.length := by
  rw [carregar_dados_eq_map, List.length_map]

/-- Characters with the same code point are equal. -/
theorem char_eq_of_toNat : ∀ a b : Char, a.toNat = b.toNat → a = b := by
  intro a b h
  cases a with
  | mk v1 p1 =>
    cases b with
    | mk v2 p2 =>
      have hv : v1 = v2 := UInt32.ext h
      subst hv
      rfl

/-- The lexicographic order on character lists is total. -/
theorem charListLe_total : ∀ a b : List Char,
    charListLe a b = true ∨ charListLe b a = true
  | [], _ => Or.inl rfl
  | _ :: _, [] => Or.inr rfl
  | a :: as, b :: bs => by
    simp only [charListLe]
    by_cases h1 : charLt a b = true
    · left
      rw [if_pos h1]
    · by_cases h2 : charLt b a = true
      · right
        rw [if_pos h2]
      · rw [if_neg h1, if_neg h2, if_neg h2, if_neg h1]
        exact charListLe_total as bs

/-- The lexicographic order on character lists is transitive. -/
theorem charListLe_trans : ∀ a b c : List Char,
    charListLe a b = true → charListLe b c = true → charListLe a c = true
  | [], _, _, _, _ => rfl
  | _ :: _, [], _, h1, _ => Bool.noConfusion h1
  | _ :: _, _ :: _, [], _, h2 => Bool.noConfusion h2
  | x :: xs, y :: ys, z :: zs, h1, h2 => by
    simp only [charListLe] at h1 h2 ⊢
    by_cases hxy : charLt x y = true
    · by_cases hyz : charLt y z = true
      · have hxz : charLt x z = true := by
          simp only [charLt, decide_eq_true_iff] at hxy hyz ⊢
          omega
        rw [if_pos hxz]
      · by_cases hzy : charLt z y = true
        · rw [if_neg hyz, if_pos hzy] at h2
          exact Bool.noConfusion h2
        · have hxz : charLt x z = true := by
            simp only [charLt, decide_eq_true_iff] at hxy hyz hzy ⊢
            omega
          rw [if_pos hxz]
    · by_cases hyx : charLt y x = true
      · rw [if_neg hxy, if_pos hyx] at h1
        exact Bool.noConfusion h1
      · rw [if_neg hxy, if_neg hyx] at h1
        by_cases hyz : charLt y z = true
        · have hxz : charLt x z = true := by
            simp only [charLt, decide_eq_true_iff] at hxy hyx hyz ⊢
            omega
          rw [if_pos hxz]
        · by_cases hzy : charLt z y = true
          · rw [if_neg hyz, if_pos hzy] at h2
            exact Bool.noConfusion h2
          · rw [if_neg hyz, if_neg hzy] at h2
            have hxz : ¬ charLt x z = true := by
              simp only [charLt, decide_eq_true_iff] at hxy hyx hyz hzy ⊢
              omega
            have hzx : ¬ charLt z x = true := by
              simp only [charLt, decide_eq_true_iff] at hxy hyx hyz hzy ⊢
              omega
            rw [if_neg hxz, if_neg hzx]
            exact charListLe_trans xs ys zs h1 h2

/-- The lexicographic order on character lists is antisymmetric. -/
theorem charListLe_antisymm : ∀ a b : List Char,
    charListLe a b = true → charListLe b a = true → a = b
  | [], [], _, _ => rfl
  | [], _ :: _, _, h2 => Bool.noConfusion h2
  | _ :: _, [], h1, _ => Bool.noConfusion h1
  | x :: xs, y :: ys, h1, h2 => by
    simp only [charListLe] at h1 h2
    by_cases hxy : charLt x y = true
    · by_cases hyx : charLt y x = true
      · simp only [charLt, decide_eq_true_iff] at hxy hyx
        omega
      · rw [if_neg hyx, if_pos hxy] at h2
        exact Bool.noConfusion h2
    · by_cases hyx : charLt y x = true
      · rw [if_neg hxy, if_pos hyx] at h1
        exact Bool.noConfusion h1
      · have hx : x = y := by
          apply char_eq_of_toNat
          simp only [charLt, decide_eq_true_iff] at hxy hyx
          omega
        rw [if_neg hxy, if_neg hyx] at h1
        rw [if_neg hyx, if_neg hxy] at h2
        rw [hx, charListLe_antisymm xs ys h1 h2]

/-- The order `strLe` is total. -/
theorem strLe_total (a b : String) : strLe a b = true ∨ strLe b a = true :=
  charListLe_total a.data b.data

/-- The order `strLe` is transitive. -/
theorem strLe_trans (a b c : String) (h1 : strLe a b = true)
    (h2 : strLe b c = true) : strLe a c = true :=
  charListLe_trans a.data b.data c.data h1 h2

/-- The order `strLe` is antisymmetric. -/
theorem strLe_antisymm (a b : String) (h1 : strLe a b = true)
    (h2 : strLe b a = true) : a = b :=
  String.ext (charListLe_antisymm a.data b.data h1 h2)

/-- The order `chaveLe` is total. -/
theorem chaveLe_total (a b : String × String) :
    chaveLe a b = true ∨ chaveLe b a = true := by
  unfold chaveLe
  by_cases h : a.1 = b.1
  · rw [if_pos (beq_iff_eq.mpr h), if_pos (beq_iff_eq.mpr h.symm)]
    exact strLe_total a.2 b.2
  · rw [if_neg (by simp [h]), if_neg (by simp [Ne.symm h])]
    exact strLe_total a.1 b.1

/-- The order `chaveLe` is transitive. -/
theorem chaveLe_trans (a b c : String × String) (h1 : chaveLe a b = true)
    (h2 : chaveLe b c = true) : chaveLe a c = true := by
  unfold chaveLe at h1 h2 ⊢
  by_cases hab : a.1 = b.1
  · by_cases hbc : b.1 = c.1
    · have hac : a.1 = c.1 := hab.trans hbc
      rw [if_pos (beq_iff_eq.mpr hab)] at h1
      rw [if_pos (beq_iff_eq.mpr hbc)] at h2
      rw [if_pos (beq_iff_eq.mpr hac)]
      exact strLe_trans a.2 b.2 c.2 h1 h2
    · have hac : ¬ a.1 = c.1 := fun e => hbc (hab.symm.trans e)
      rw [if_neg (by simp [hbc])] at h2
      rw [if_neg (by simp [hac]), hab]
      exact h2
  · by_cases hbc : b.1 = c.1
    · have hac : ¬ a.1 = c.1 := fun e => hab (e.trans hbc.symm)
      rw [if_neg (by simp [hab])] at h1
      rw [if_neg (by simp [hac]), ← hbc]
      exact h1
    · rw [if_neg (by simp [hab])] at h1
      rw [if_neg (by simp [hbc])] at h2
      by_cases hac : a.1 = c.1
      · exfalso
        have h3 : strLe b.1 a.1 = true := by
          rw [hac]
          exact h2
        exact hab (strLe_antisymm a.1 b.1 h1 h3)
      · rw [if_neg (by simp [hac])]
        exact strLe_trans a.1 b.1 c.1 h1 h2

/-- The descending comparison on group sums is total. -/
theorem porCasosDesc_total {κ : Type} (a b : κ × Nat) :
    porCasosDesc a b = true ∨ porCasosDesc b a = true := by
  simp only [porCasosDesc, Nat.ble_eq]
  omega

/-- The descending comparison on group sums is transitive. -/
theorem porCasosDesc_trans {κ : Type} (a b c : κ × Nat)
    (h1 : porCasosDesc a b = true) (h2 : porCasosDesc b c = true) :
    porCasosDesc a c = true := by
  simp only [porCasosDesc, Nat.ble_eq] at h1 h2 ⊢
  omega

/-- C1: for every table and year, filtering with that year and an empty
state set returns exactly the rows whose `ano` equals the year, and the
number of returned rows is the count of such rows. -/
theorem claim_C1 (df : List Row) (ano : Int) :
    df_filtro df ano [] = df.filter (fun r => decide (r.ano = some ano)) ∧
    (df_filtro df ano []).length = df.countP (fun r => decide (r.ano = some ano)) := by
  constructor
  · simp [df_filtro]
  · simp [df_filtro, List.countP_eq_length_filter]

/-- C5: for every table, year and non-empty state selection, the filtered
result is a sublist of the year-only filter, and every returned row carries
a state code that belongs to the selection. -/
theorem claim_C5 (df : List Row) (ano : Int) (estado : List String)
    (h : estado ≠ []) :
    (df_filtro df ano estado).Sublist (df_filtro df ano []) ∧
    ∀ r ∈ df_filtro df ano estado, ∃ s ∈ estado, r.uf = some s := by
  have he : estado.isEmpty = false := by
    cases estado with
    | nil => exact absurd rfl h
    | cons a t => rfl
  constructor
  · simp only [df_filtro, he, Bool.false_eq_true, if_false, List.isEmpty_nil, if_true]
    exact List.filter_sublist _
  · intro r hr
    simp only [df_filtro, he, Bool.false_eq_true, if_false] at hr
    rw [List.mem_filter] at hr
    obtain ⟨_, hr2⟩ := hr
    cases hu : r.uf with
    | none =>
      rw [hu] at hr2
      exact absurd hr2 (by simp [isin])
    | some s =>
      rw [hu] at hr2
      exact ⟨s, List.elem_iff.mp hr2, rfl⟩

/-- C5 witness: a concrete non-empty selection. -/
theorem claim_C5_witness :
    (["SP"] ≠ ([] : List String)) ∧
    ((df_filtro exDfC10 2020 ["SP"]).Sublist (df_filtro exDfC10 2020 []) ∧
     ∀ r ∈ df_filtro exDfC10 2020 ["SP"], ∃ s ∈ ["SP"], r.uf = some s) :=
  ⟨by decide, claim_C5 exDfC10 2020 ["SP"] (by decide)⟩

/-- C6: when the filtered table is empty the script stops at the "no data"
warning: no aggregate is computed. -/
theorem claim_C6 (df : List Row) (ano : Int) (estado : List String)
    (h : df_filtro df ano estado = []) :
    executar df ano estado = Resultado.semDados := by
  simp [executar, h]

/-- C6 witness: a year with no matching rows. -/
theorem claim_C6_witness :
    df_filtro exDfC10 1999 [] = [] ∧
    executar exDfC10 1999 [] = Resultado.semDados :=
  ⟨by decide, claim_C6 exDfC10 1999 [] (by decide)⟩

/-- C2 (amended): the sum of `casos` over the state-totals output equals the
sum of `casos` over the filtered rows whose state code is non-null; rows
with a null state code are dropped by `groupby("uf")` and are not counted. -/
theorem claim_C2 (dfF : List Row) :
    ((casos_estado dfF).map (fun g => g.2)).sum
      = sumCasos (dfF.filter (fun r => r.uf.isSome)) := by
  unfold casos_estado
  rw [((sortBy_perm porCasosDesc
    (groupbySumCasos (fun r => r.uf) strLe dfF)).map (fun g => g.2)).sum_eq]
  exact groupbySumCasos_sum (fun r => r.uf) strLe dfF

/-- C2 counterexample: one filtered row with a null state code; the
state-totals output is empty and its sum differs from the filtered sum. -/
theorem claim_C2_counterexample :
    df_filtro exDfC2 2020 [] = exDfC2 ∧
    sumCasos (df_filtro exDfC2 2020 []) = 1 ∧
    ((casos_estado (df_filtro exDfC2 2020 [])).map (fun g => g.2)).sum
      ≠ sumCasos (df_filtro exDfC2 2020 []) :=
  ⟨by decide, by decide, by decide⟩

/-- C9: the Municipality Reference has one entry per id, and the loader's
left merge against it neither drops nor duplicates rows. -/
theorem claim_C9 (parse : String → Option Datetime) (raw : List RawRow) :
    ((referencia_municipios (parse_linhas parse raw)).map (fun e => e.1)).Nodup ∧
    (carregar_dados parse raw).length = raw.length :=
  ⟨referencia_keys_nodup _, carregar_dados_length parse raw⟩

/-- C7: a raw row whose notification date does not parse is kept by the
loader (row counts agree), its derived `ano` is null, and its loaded row is
not selected by any year filter. -/
theorem claim_C7 (parse : String → Option Datetime) (raw : List RawRow)
    (ano : Int) (r : RawRow) (hr : r ∈ raw) (hp : parse r.dt_notific = none) :
    (carregar_dados parse raw).length = raw.length ∧
    (carregar_linha parse raw r).ano = none ∧
    carregar_linha parse raw r ∈ carregar_dados parse raw ∧
    carregar_linha parse raw r ∉ df_filtro (carregar_dados parse raw) ano [] := by
  have hano : (carregar_linha parse raw r).ano = none := by
    simp [carregar_linha, hp]
  refine ⟨carregar_dados_length parse raw, hano, ?_, ?_⟩
  · rw [carregar_dados_eq_map]
    exact List.mem_map_of_mem _ hr
  · intro hmem
    have h2 : (carregar_linha parse raw r).ano = some ano := by
      have h3 : carregar_linha parse raw r ∈ (carregar_dados parse raw).filter
          (fun x => decide (x.ano = some ano)) := by
        simpa [df_filtro] using hmem
      exact of_decide_eq_true (List.mem_filter.mp h3).2
    rw [hano] at h2
    exact Option.noConfusion h2

/-- C7 witness: a parser that parses nothing and a one-row table. -/
theorem claim_C7_witness :
    exRawC7row ∈ exRawC7 ∧ parseNone exRawC7row.dt_notific = none ∧
    ((carregar_dados parseNone exRawC7).length = exRawC7.length ∧
     (carregar_linha parseNone exRawC7 exRawC7row).ano = none ∧
     carregar_linha parseNone exRawC7 exRawC7row ∈ carregar_dados parseNone exRawC7 ∧
     carregar_linha parseNone exRawC7 exRawC7row ∉
       df_filtro (carregar_dados parseNone exRawC7) 2020 []) :=
  ⟨by decide, rfl, claim_C7 parseNone exRawC7 2020 exRawC7row (by decide) rfl⟩

/-- C8: the Municipality Reference has one entry per id; its entry for an id
is the first parsed row with a non-null name and that id; and every loaded
row's name column equals the reference lookup of its id (null when the id
has no entry). -/
theorem claim_C8 (parse : String → Option Datetime) (raw : List RawRow) :
    ((referencia_municipios (parse_linhas parse raw)).map (fun e => e.1)).Nodup ∧
    (∀ i : Nat,
      (referencia_municipios (parse_linhas parse raw)).find? (fun e => e.1 == i)
        = ((parse_linhas parse raw).find?
            (fun r => r.nome_municipio.isSome && r.id_municip == i)).map
            (fun r => (r.id_municip, r.nome_municipio))) ∧
    (∀ r2 ∈ carregar_dados parse raw,
      r2.nome_municipio
        = lookupNome (referencia_municipios (parse_linhas parse raw)) r2.id_municip) := by
  refine ⟨referencia_keys_nodup _, ?_, ?_⟩
  · intro i
    unfold referencia_municipios
    rw [List.find?_map]
    rw [show ((fun e : Nat × Option String => e.1 == i) ∘
        fun r : Row => (r.id_municip, r.nome_municipio))
        = fun r : Row => r.id_municip == i from rfl]
    rw [dedupBy_find (fun r : Row => r.id_municip) i, find_on_filter]
  · intro r2 h2
    rw [carregar_dados_eq_map] at h2
    rw [List.mem_map] at h2
    obtain ⟨r0, _, rfl⟩ := h2
    rfl

/-- C4: the geo aggregate drops every row with a null coordinate after the
join, so a municipality id whose geo reference entry lacks both coordinates
(or has no entry at all) never reaches the map output. -/
theorem claim_C4 (df dfF : List Row) (i : Nat)
    (h : ∀ g ∈ geo_base df, g.id_municip = i →
         g.lat_locali = none ∧ g.long_local = none) :
    (∀ m ∈ casos_mapa df dfF,
       m.lat_locali.isSome = true ∧ m.long_local.isSome = true) ∧
    (∀ m ∈ casos_mapa df dfF, m.id_municip ≠ i) := by
  constructor
  · intro m hm
    simp only [casos_mapa] at hm
    rw [List.mem_filter, Bool.and_eq_true] at hm
    exact hm.2
  · intro m hm hid
    simp only [casos_mapa] at hm
    rw [List.mem_filter] at hm
    obtain ⟨hm1, hm2⟩ := hm
    rcases mem_mergeLeft hm1 with ⟨t, _, rfl⟩ | ⟨t, _, g, hg, hkey, rfl⟩
    · simp at hm2
    · have hgid : g.id_municip = i := by
        rw [hkey]
        simpa using hid
      obtain ⟨hla, hlo⟩ := h g hg hgid
      simp [hla] at hm2

/-- C4 witness: one municipality with case count 1 whose geo entry has both
coordinates null. -/
theorem claim_C4_witness :
    (∀ g ∈ geo_base exDfC4, g.id_municip = 1 →
        g.lat_locali = none ∧ g.long_local = none) ∧
    ((∀ m ∈ casos_mapa exDfC4 (df_filtro exDfC4 2020 []),
        m.lat_locali.isSome = true ∧ m.long_local.isSome = true) ∧
     (∀ m ∈ casos_mapa exDfC4 (df_filtro exDfC4 2020 []), m.id_municip ≠ 1)) :=
  ⟨by decide, claim_C4 exDfC4 (df_filtro exDfC4 2020 []) 1 (by decide)⟩

/-- C10: the geo reference keeps, for each id, the first row of the full
table without discarding null coordinates first; consequently, on the
concrete table whose first row for id 1 lacks a latitude, id 1 is excluded
from the map output although its summed case count is 2 and its second row
carries full coordinates. -/
theorem claim_C10 :
    (∀ (df : List Row) (i : Nat),
      (geo_base df).find? (fun g => g.id_municip == i)
        = (df.find? (fun r => r.id_municip == i)).map linha_geo) ∧
    exDfC10.map (fun r => (r.lat_locali, r.long_local))
      = [(none, some 2), (some 1, some 2)] ∧
    sumCasos ((df_filtro exDfC10 2020 []).filter
      (fun r => decide (r.id_municip = 1))) = 2 ∧
    casos_mapa exDfC10 (df_filtro exDfC10 2020 []) = [] := by
  refine ⟨?_, by decide, by decide, by decide⟩
  intro df i
  unfold geo_base
  rw [dedupBy_find (fun g : GeoRow => g.id_municip) i, List.find?_map]
  rfl

/-- The groups produced by the municipality groupby are listed in ascending
key order (pandas `groupby(..., sort=True)`). -/
theorem groupbySumCasos_keys_sorted (l : List Row) :
    (groupbySumCasos chave_municipio chaveLe l).Pairwise
      (fun a b => chaveLe a.1 b.1 = true) := by
  unfold groupbySumCasos
  have h := @sortBy_pairwise _ chaveLe (fun _ _ => True)
    chaveLe_total chaveLe_trans
    ((l.filterMap chave_municipio).dedup) (pairwise_trivial _)
  have h2 : (sortBy chaveLe (l.filterMap chave_municipio).dedup).Pairwise
      (fun a b => chaveLe a b = true) := h.imp (fun hab => hab.1)
  exact List.Pairwise.map _ (fun a b hab => hab) h2

/-- C3 (amended): the top-municipality aggregate has at most 20 rows, is
sorted descending by case count, and null municipality names are dropped
before grouping (filtering them away first changes nothing).  No order is
asserted among rows with equal case counts: `sort_values` uses numpy's
default unstable sort, so the program guarantees none. -/
theorem claim_C3 (dfF : List Row) :
    (casos_municipio dfF).length ≤ 20 ∧
    (casos_municipio dfF).Pairwise (fun a b => b.2 ≤ a.2) ∧
    casos_municipio dfF
      = casos_municipio (dfF.filter (fun r => r.nome_municipio.isSome)) := by
  refine ⟨?_, ?_, ?_⟩
  · exact List.length_take_le 20 _
  · unfold casos_municipio
    apply List.Pairwise.sublist (List.take_sublist 20 _)
    have h := @sortBy_pairwise _ porCasosDesc (fun _ _ => True)
      porCasosDesc_total porCasosDesc_trans
      (groupbySumCasos chave_municipio chaveLe
        (dfF.filter (fun r => r.nome_municipio.isSome)))
      (pairwise_trivial _)
    refine h.imp ?_
    intro a b hab
    have h1 := hab.1
    simpa [porCasosDesc, Nat.ble_eq] using h1
  · simp [casos_municipio, List.filter_filter, Bool.and_self]

/-- C3 counterexample: two municipalities tied at one case each; the input
lists "B" before "A", but the output lists "A" before "B" (group-key order,
not input order). -/
theorem claim_C3_counterexample :
    exMun.map (fun r => r.nome_municipio) = [some "B", some "A"] ∧
    exMun.map (fun r => r.casos) = [1, 1] ∧
    casos_municipio exMun = [(("A", "SP"), 1), (("B", "SP"), 1)] :=
  ⟨by decide, by decide, by decide⟩
